import Mathlib

/-!
Shallow embedding of the knowledge-graph ingestion and retrieval engine
(`src/graph/graph_builder.py`, `src/graph/neo4j_client.py`,
`src/rag/retriever.py`, `src/learning/progress_tracker.py`,
`src/ingestion/embeddings_generator.py`).

The Neo4j property graph is modelled as an explicit `GraphState`; every
Cypher statement in the source is translated clause by clause into a pure
state transition (MERGE = update-if-key-present-else-append, MATCH with no
rows = no-op, CREATE = append).  Wall-clock `datetime()` is threaded as an
explicit `now : Nat` parameter.
-/

/-- Modelled from the spec: the external sentence-transformers embedding
model (out of scope of the repository, "a black-box function
`embed(text) -> vector` of fixed dimension").  `encode` may fail (a raised
exception is `none`); per the EmbeddingPort boundary a successful encode
returns a vector of the model's configured dimension `D`
(`self.dimension = model.get_sentence_embedding_dimension()`). -/
structure EmbModel where
  dimension : Nat
  encode : String → Option (List Float)
  encode_dim : ∀ s v, encode s = some v → v.length = dimension

/-- `EmbeddingsGenerator.generate_embedding`: zero vector for empty/blank
text, the model's encoding otherwise, falling back to the zero vector when
the model raises. -/
def generate_embedding (em : EmbModel) (text : String) : List Float :=
  if text.trim = "" then List.replicate em.dimension 0.0
  else
    match em.encode text with
    | some v => v
    | none => List.replicate em.dimension 0.0

/-- A `Subject` node (`name` is the MERGE key). -/
structure Subj where
  name : String
  description : String
  updated_at : Nat
deriving Repr, DecidableEq

/-- A `Topic` node (`(name, subject)` is the MERGE key). -/
structure TopicNode where
  name : String
  subject : String
  description : String
  difficulty_level : Int
  updated_at : Nat
deriving Repr, DecidableEq

/-- A `Question` node.  `id` models Neo4j node identity (Question nodes are
CREATEd unconditionally, so they have no natural key). -/
structure QuestionNode where
  id : Nat
  text : String
  year : Int
  paper_set : String
  options : List String
  answer : String
  difficulty : Int
  marks : Int
  embedding : List Float
  created_at : Nat
deriving Repr

/-- A `Chunk` node. -/
structure ChunkNode where
  text : String
  source_file : String
  source_type : String
  page_number : Int
  chunk_index : Int
  embedding : List Float
  created_at : Nat
deriving Repr

/-- A `Concept` node (`(name, topic, subject)` is the MERGE key). -/
structure ConceptNode where
  name : String
  topic : String
  subject : String
  explanation : String
deriving Repr, DecidableEq

/-- A Question node together with the `HAS_QUESTION` edge from its owning
Topic (the edge is MERGEd immediately after the CREATE on a fresh node, so
node and edge always appear together). -/
structure OwnedQuestion where
  topicName : String
  topicSubject : String
  q : QuestionNode
deriving Repr

/-- A Chunk node together with its `EXPLAINED_BY` edge. -/
structure OwnedChunk where
  topicName : String
  topicSubject : String
  c : ChunkNode
deriving Repr

/-- The `ATTEMPTED` relationship attributes. -/
structure AttemptRel where
  attempt_count : Nat
  correct_count : Nat
  first_attempt : Nat
  last_attempt : Option Nat
  last_correct : Option Nat
deriving Repr, DecidableEq

/-- The property graph: node lists per label, `HAS_TOPIC` edges as
(subject name, topic name) pairs, `ATTEMPTED` relationships keyed by
Question node id, and a fresh-id counter for Question node identity. -/
structure GraphState where
  subjects : List Subj := []
  topics : List TopicNode := []
  hasTopicEdges : List (String × String) := []
  questions : List OwnedQuestion := []
  chunks : List OwnedChunk := []
  concepts : List ConceptNode := []
  users : List String := []
  attempts : List (Nat × AttemptRel) := []
  nextId : Nat := 0
deriving Repr

/-- Whether a Subject node with the given name exists. -/
def hasSubject (st : GraphState) (name : String) : Bool :=
  st.subjects.any (fun s => s.name = name)

/-- The topic-existence check used before every content write
(`MATCH (t:Topic {name: $topic, subject: $subject}) RETURN t`). -/
def topicExists (st : GraphState) (subject topic : String) : Bool :=
  st.topics.any (fun t => t.name = topic && t.subject = subject)

/-- Whether a `HAS_TOPIC` edge from the named Subject to the named Topic
exists. -/
def hasEdge (st : GraphState) (subject topic : String) : Bool :=
  st.hasTopicEdges.any (fun e => e.1 = subject && e.2 = topic)

/-- `GraphBuilder.create_subject`: `MERGE (s:Subject {name}) SET
s.description, s.updated_at`. -/
def create_subject (st : GraphState) (name description : String)
    (now : Nat) : GraphState :=
  if hasSubject st name then
    { st with subjects := st.subjects.map (fun s =>
        if s.name = name then
          { s with description := description, updated_at := now }
        else s) }
  else
    { st with subjects := st.subjects ++ [⟨name, description, now⟩] }

/-- The `MERGE (t:Topic {name: $topic_name, subject: $subject_name})
SET t.description, t.difficulty_level, t.updated_at` clause of
`create_topic`. -/
def mergeTopicNode (st : GraphState) (subject_name topic_name : String)
    (description : String) (difficulty : Int) (now : Nat) : GraphState :=
  if topicExists st subject_name topic_name then
    { st with topics := st.topics.map (fun t =>
        if t.name = topic_name && t.subject = subject_name then
          { t with description := description,
                   difficulty_level := difficulty, updated_at := now }
        else t) }
  else
    { st with topics := st.topics ++
        [⟨topic_name, subject_name, description, difficulty, now⟩] }

/-- The `MERGE (s)-[:HAS_TOPIC]->(t)` clause of `create_topic`. -/
def mergeHasTopicEdge (st : GraphState) (subject_name topic_name :
    String) : GraphState :=
  if hasEdge st subject_name topic_name then st
  else { st with hasTopicEdges :=
          st.hasTopicEdges ++ [(subject_name, topic_name)] }

/-- `GraphBuilder.create_topic`: `MATCH (s:Subject {name: $subject_name})
MERGE (t:Topic {name, subject}) SET ... MERGE (s)-[:HAS_TOPIC]->(t)`.
When the Subject MATCH yields no rows the whole statement is a no-op. -/
def create_topic (st : GraphState) (subject_name topic_name : String)
    (description : String) (difficulty : Int) (now : Nat) : GraphState :=
  if hasSubject st subject_name then
    mergeHasTopicEdge
      (mergeTopicNode st subject_name topic_name description difficulty
        now)
      subject_name topic_name
  else st

/-- One topic entry of the syllabus dictionary (`.get` defaults already
resolved: `description` defaults to `""`, `difficulty` to `1`). -/
structure TopicInfo where
  name : String
  description : String := ""
  difficulty : Int := 1
deriving Repr, DecidableEq

/-- One subject entry of the syllabus dictionary. -/
structure SubjectInfo where
  description : String := ""
  topics : List TopicInfo := []
deriving Repr, DecidableEq

/-- The syllabus dictionary, in insertion order. -/
abbrev Syllabus := List (String × SubjectInfo)

/-- The inner loop of `load_syllabus` over one subject's topic list. -/
def load_topics (st : GraphState) (subject_name : String)
    (ts : List TopicInfo) (now : Nat) : GraphState :=
  ts.foldl (fun acc t =>
    create_topic acc subject_name t.name t.description t.difficulty now) st

/-- `GraphBuilder.load_syllabus`: for each subject entry, create the
Subject then each of its Topics. -/
def load_syllabus (st : GraphState) (data : Syllabus) (now : Nat) :
    GraphState :=
  data.foldl (fun acc p =>
    load_topics (create_subject acc p.1 p.2.description now) p.1
      p.2.topics now) st

/-- `GraphBuilder.get_graph_statistics`: node count per label. -/
structure GraphStats where
  subjects : Nat
  topics : Nat
  questions : Nat
  chunks : Nat
  concepts : Nat
deriving Repr, DecidableEq

/-- Node counts for every label tracked by `get_graph_statistics`. -/
def get_graph_statistics (st : GraphState) : GraphStats :=
  ⟨st.subjects.length, st.topics.length, st.questions.length,
   st.chunks.length, st.concepts.length⟩

/-- An ingestion question record (dictionary with `.get` defaults already
resolved). -/
structure QuestionRecord where
  question_text : String
  subject : String
  topic : String
  year : Int := 0
  paper_set : String := "unknown"
  options : List String := []
  answer : String := ""
  difficulty : Int := 0
  marks : Int := 1
deriving Repr

/-- The text embedded for a question: the question text, with the option
strings appended one per line when the options list is non-empty
(Python truthiness of `question_data.get('options')`). -/
def questionFullText (qd : QuestionRecord) : String :=
  if qd.options.isEmpty then qd.question_text
  else qd.question_text ++ "\n" ++ String.intercalate "\n" qd.options

/-- `GraphBuilder.create_question`: check the target Topic exists (reject
with `None` otherwise), embed the question text, then CREATE the Question
node and MERGE the `HAS_QUESTION` edge. -/
def create_question (st : GraphState) (qd : QuestionRecord)
    (em : EmbModel) (now : Nat) : Option QuestionNode × GraphState :=
  if topicExists st qd.subject qd.topic then
    let emb := generate_embedding em (questionFullText qd)
    let q : QuestionNode :=
      ⟨st.nextId, qd.question_text, qd.year, qd.paper_set, qd.options,
       qd.answer, qd.difficulty, qd.marks, emb, now⟩
    (some q,
     { st with questions := st.questions ++ [⟨qd.topic, qd.subject, q⟩],
               nextId := st.nextId + 1 })
  else (none, st)

/-- The loop body of `load_pyqs`: apply `create_question` to one record,
bumping `success_count` on a created node and `failed_count` on a
rejection. -/
def pyqStep (em : EmbModel) (now : Nat) (acc : Nat × Nat × GraphState)
    (r : QuestionRecord) : Nat × Nat × GraphState :=
  match create_question acc.2.2 r em now with
  | (some _, st') => (acc.1 + 1, acc.2.1, st')
  | (none, st') => (acc.1, acc.2.1 + 1, st')

/-- `GraphBuilder.load_pyqs`: apply `create_question` to each record,
counting successes and failures; the per-record `try/except` means no
record aborts the batch.  Returns the reported
(success_count, failed_count) pair together with the final state. -/
def load_pyqs (st : GraphState) (recs : List QuestionRecord)
    (em : EmbModel) (now : Nat) : Nat × Nat × GraphState :=
  recs.foldl (pyqStep em now) (0, 0, st)

/-- An ingestion chunk record; `embedding` is `none` when the key is
absent (`some []` is the present-but-falsy case). -/
structure ChunkRecord where
  text : String
  subject : String
  topic : String
  source_file : String := "unknown"
  page_number : Int := 0
  chunk_index : Int := 0
  embedding : Option (List Float) := none
deriving Repr

/-- The embedding stored by `create_chunk`: recomputed from the text
exactly when `'embedding' not in chunk_data or not chunk_data['embedding']`
(absent or falsy, i.e. empty), the supplied vector verbatim otherwise. -/
def chunkEmbedding (cd : ChunkRecord) (em : EmbModel) : List Float :=
  match cd.embedding with
  | none => generate_embedding em cd.text
  | some [] => generate_embedding em cd.text
  | some v => v

/-- `GraphBuilder.create_chunk`: resolve the embedding, check the target
Topic exists (reject with `None` otherwise), then CREATE the Chunk node
and MERGE the `EXPLAINED_BY` edge. -/
def create_chunk (st : GraphState) (cd : ChunkRecord) (em : EmbModel)
    (now : Nat) : Option ChunkNode × GraphState :=
  let emb := chunkEmbedding cd em
  if topicExists st cd.subject cd.topic then
    let c : ChunkNode :=
      ⟨cd.text, cd.source_file, "textbook", cd.page_number,
       cd.chunk_index, emb, now⟩
    (some c, { st with chunks := st.chunks ++ [⟨cd.topic, cd.subject, c⟩] })
  else (none, st)

/-- The Question nodes attached to a Topic, i.e. the rows of
`MATCH (t:Topic {name: $topic, subject: $subject})-[:HAS_QUESTION]->(q)`. -/
def questionsForTopic (st : GraphState) (subject topic : String) :
    List QuestionNode :=
  (st.questions.filter (fun oq =>
    oq.topicName = topic && oq.topicSubject = subject)).map (fun oq => oq.q)

/-- The Chunk nodes attached to a Topic via `EXPLAINED_BY`. -/
def chunksForTopic (st : GraphState) (subject topic : String) :
    List ChunkNode :=
  (st.chunks.filter (fun oc =>
    oc.topicName = topic && oc.topicSubject = subject)).map (fun oc => oc.c)

/-- `ORDER BY q.difficulty ASC, q.year DESC` as a total ordering
relation. -/
def ordDiffAsc (a b : QuestionNode) : Prop :=
  a.difficulty < b.difficulty ∨
    (a.difficulty = b.difficulty ∧ b.year ≤ a.year)

/-- `ORDER BY q.difficulty DESC, q.year DESC` as a total ordering
relation. -/
def ordDiffDesc (a b : QuestionNode) : Prop :=
  b.difficulty < a.difficulty ∨
    (a.difficulty = b.difficulty ∧ b.year ≤ a.year)

/-- `ORDER BY q.year DESC, q.difficulty ASC` as a total ordering
relation. -/
def ordYearDesc (a b : QuestionNode) : Prop :=
  b.year < a.year ∨ (a.year = b.year ∧ a.difficulty ≤ b.difficulty)

instance : DecidableRel ordDiffAsc := fun a b => by
  unfold ordDiffAsc; infer_instance

instance : DecidableRel ordDiffDesc := fun a b => by
  unfold ordDiffDesc; infer_instance

instance : DecidableRel ordYearDesc := fun a b => by
  unfold ordYearDesc; infer_instance

instance : IsTotal QuestionNode ordDiffAsc :=
  ⟨by intro a b; unfold ordDiffAsc; omega⟩

instance : IsTrans QuestionNode ordDiffAsc :=
  ⟨by intro a b c h1 h2; unfold ordDiffAsc at *; omega⟩

instance : IsTotal QuestionNode ordDiffDesc :=
  ⟨by intro a b; unfold ordDiffDesc; omega⟩

instance : IsTrans QuestionNode ordDiffDesc :=
  ⟨by intro a b c h1 h2; unfold ordDiffDesc at *; omega⟩

instance : IsTotal QuestionNode ordYearDesc :=
  ⟨by intro a b; unfold ordYearDesc; omega⟩

instance : IsTrans QuestionNode ordYearDesc :=
  ⟨by intro a b c h1 h2; unfold ordYearDesc at *; omega⟩

/-- The WHERE clause built by `get_questions_by_topic`: the year clause is
added under Python truthiness (`if year:`, so `0` and `None` add no
clause); the difficulty clause is added under `if difficulty is not None:`
(so `0` does add an equality clause). -/
def questionFilter (year difficulty : Option Int) (q : QuestionNode) :
    Bool :=
  (match year with
   | none => true
   | some y => if y = 0 then true else q.year = y) &&
  (match difficulty with
   | none => true
   | some d => q.difficulty = d)

/-- `HybridRetriever.get_questions_by_topic`: match the topic's questions,
apply the optional year/difficulty WHERE clauses, `ORDER BY q.year DESC,
q.difficulty ASC`, `LIMIT $limit`. -/
def get_questions_by_topic (st : GraphState) (subject topic : String)
    (year difficulty : Option Int) (limit : Nat) : List QuestionNode :=
  (((questionsForTopic st subject topic).filter
      (questionFilter year difficulty)).insertionSort ordYearDesc).take
    limit

/-- `HybridRetriever.get_questions_ordered_by_difficulty`:
`ORDER BY q.difficulty ASC, q.year DESC` when ascending, `DESC` order on
difficulty otherwise. -/
def get_questions_ordered_by_difficulty (st : GraphState)
    (subject topic : String) (ascending : Bool) : List QuestionNode :=
  if ascending then
    (questionsForTopic st subject topic).insertionSort ordDiffAsc
  else
    (questionsForTopic st subject topic).insertionSort ordDiffDesc

/-- The `TopicContext` dictionary returned by a successful
`graph_search`; the `concepts` key is present only when
`include_concepts` was set. -/
structure TopicContext where
  topic : String
  description : String
  difficulty : Int
  sample_chunks : List String
  question_count : Nat
  concepts : Option (List String)
deriving Repr, DecidableEq

/-- `HybridRetriever.graph_search`: `MATCH (s:Subject {name:
$subject})-[:HAS_TOPIC]->(t:Topic {name: $topic})` with OPTIONAL MATCHes
for chunks, questions and (optionally) concepts.  A failed MATCH yields
zero rows, hence the empty dictionary (`none`); otherwise one aggregated
row with `collect(DISTINCT chunk.text)[0..5]` (`collect` ignores nulls)
and `count(DISTINCT q)`. -/
def graph_search (st : GraphState) (subject topic : String)
    (include_concepts : Bool) : Option TopicContext :=
  if hasSubject st subject && hasEdge st subject topic then
    match st.topics.find? (fun t =>
        t.name = topic && t.subject = subject) with
    | none => none
    | some t =>
      some
        ⟨t.name, t.description, t.difficulty_level,
         (((chunksForTopic st subject topic).map
             (fun c => c.text)).dedup).take 5,
         (questionsForTopic st subject topic).length,
         if include_concepts then
           some ((st.concepts.filter (fun c =>
             c.topic = topic && c.subject = subject)).map
               (fun c => c.name)).dedup
         else none⟩
  else none

/-- `ProgressTracker._ensure_progress_nodes`:
`MERGE (u:User {id: 'default_user'})`. -/
def ensure_progress_nodes (st : GraphState) : GraphState :=
  if st.users.contains "default_user" then st
  else { st with users := st.users ++ ["default_user"] }

/-- The `MERGE (u)-[a:ATTEMPTED]->(q)` upsert for one matched Question
node: `ON CREATE` initialises the counts and `first_attempt`; `ON MATCH`
increments the counts and updates `last_attempt` / `last_correct`. -/
def upsertAttempt (attempts : List (Nat × AttemptRel)) (qid : Nat)
    (is_correct : Bool) (now : Nat) : List (Nat × AttemptRel) :=
  if attempts.any (fun p => p.1 = qid) then
    attempts.map (fun p =>
      if p.1 = qid then
        (p.1,
         { p.2 with
             last_attempt := some now,
             attempt_count := p.2.attempt_count + 1,
             correct_count :=
               p.2.correct_count + (if is_correct then 1 else 0),
             last_correct :=
               if is_correct then some now else p.2.last_correct })
      else p)
  else
    attempts ++
      [(qid, ⟨1, if is_correct then 1 else 0, now, none,
              if is_correct then some now else none⟩)]

/-- The Question nodes matched by `record_attempt`'s pattern:
`(t:Topic {name, subject})-[:HAS_QUESTION]->(q:Question {text})`. -/
def matchedQuestions (st : GraphState) (subject topic question_text :
    String) : List QuestionNode :=
  (questionsForTopic st subject topic).filter
    (fun q => q.text = question_text)

/-- `ProgressTracker.record_attempt`: MATCH the default user, the topic
and its questions with the given text (no rows means the whole statement
is a no-op), then upsert the `ATTEMPTED` relationship for every matched
Question node. -/
def record_attempt (st : GraphState) (subject topic question_text :
    String) (is_correct : Bool) (now : Nat) : GraphState :=
  if st.users.contains "default_user" &&
      topicExists st subject topic then
    { st with attempts :=
        ((matchedQuestions st subject topic question_text).foldl
          (fun acc q => upsertAttempt acc q.id is_correct now)
          st.attempts) }
  else st

/-- The `ATTEMPTED` relationship stored for a given Question node id. -/
def findAttempt (st : GraphState) (qid : Nat) : Option AttemptRel :=
  (st.attempts.find? (fun p => p.1 = qid)).map (fun p => p.2)

/-- The Neo4j backend as seen through `Neo4jClient`: the graph plus a
fault flag — when `fault` is set, every `session.run` raises (connection
refused, query failure, ...), which `run_query` prints and re-raises. -/
structure Backend where
  st : GraphState
  fault : Bool

/-- A backend error propagated out of `Neo4jClient.run_query`. -/
inductive DbError
  | backend
deriving Repr, DecidableEq

/-- `Neo4jClient.run_query` as observed on the rows `rows` computed by a
healthy backend: the `try/except` re-raises any backend error
(`raise`), so the caller sees `.error` exactly when the backend
faults. -/
def run_query (b : Backend) (rows : List α) : Except DbError (List α) :=
  if b.fault then .error .backend else .ok rows

/-- `create_question` as seen through the fallible client: no
`try/except` in `GraphBuilder.create_question`, so a backend error from
the very first `run_query` (the topic check) propagates and the state is
untouched. -/
def create_questionE (b : Backend) (qd : QuestionRecord) (em : EmbModel)
    (now : Nat) : Except DbError (Option QuestionNode × GraphState) :=
  if b.fault then .error .backend else .ok (create_question b.st qd em now)

/-- `HybridRetriever.graph_search` through the fallible client: the
`try/except` around `run_query` catches any backend error and returns the
empty dictionary. -/
def graph_searchE (b : Backend) (subject topic : String)
    (include_concepts : Bool) : Option TopicContext :=
  if b.fault then none else graph_search b.st subject topic include_concepts

/-- `HybridRetriever.get_questions_by_topic` through the fallible client:
the `try/except` catches any backend error and returns the empty list. -/
def get_questions_by_topicE (b : Backend) (subject topic : String)
    (year difficulty : Option Int) (limit : Nat) : List QuestionNode :=
  if b.fault then []
  else get_questions_by_topic b.st subject topic year difficulty limit

/-- `HybridRetriever.get_questions_ordered_by_difficulty` through the
fallible client: the `try/except` catches any backend error and returns
the empty list. -/
def get_questions_ordered_by_difficultyE (b : Backend)
    (subject topic : String) (ascending : Bool) : List QuestionNode :=
  if b.fault then []
  else get_questions_ordered_by_difficulty b.st subject topic ascending

/-- Whether the initial `MATCH` pattern of `graph_search` binds a row:
the Subject node, the `HAS_TOPIC` edge and the Topic node all exist. -/
def graphMatch (st : GraphState) (subject topic : String) : Bool :=
  hasSubject st subject && hasEdge st subject topic &&
    (st.topics.find? (fun t =>
      t.name = topic && t.subject = subject)).isSome

/-- The `(subjects, topics, HAS_TOPIC)` counts affected by
`load_syllabus`. -/
def curriculumCounts (st : GraphState) : Nat × Nat × Nat :=
  (st.subjects.length, st.topics.length, st.hasTopicEdges.length)

/-- Whether every Subject, Topic and `HAS_TOPIC` edge of a syllabus tree
is already present in the graph. -/
def syllabusLoaded (st : GraphState) (data : Syllabus) : Bool :=
  data.all (fun p =>
    hasSubject st p.1 &&
      p.2.topics.all (fun t =>
        topicExists st p.1 t.name && hasEdge st p.1 t.name))

/-- A concrete two-dimensional embedding model used for evaluation. -/
def emW : EmbModel :=
  ⟨2, fun _ => some [0.5, 0.5], by intro s v h; cases h; rfl⟩

/-- A concrete 384-dimensional embedding model whose encoder always
raises (so only the zero-vector fallback is exercised). -/
def em384 : EmbModel := ⟨384, fun _ => none, by intro s v h; cases h⟩

/-- A concrete state obtained by loading a small curriculum. -/
def stW : GraphState :=
  load_syllabus {} [("S", ⟨"sd", [⟨"T", "td", 2⟩, ⟨"U", "ud", 3⟩]⟩)] 0

/-- A concrete Question node of difficulty 0. -/
def qA : QuestionNode := ⟨0, "qa", 2020, "set1", [], "A", 0, 1, [], 0⟩

/-- A concrete Question node of difficulty 3. -/
def qB : QuestionNode := ⟨1, "qb", 2021, "set1", [], "B", 3, 1, [], 0⟩

/-- A concrete state with one topic, two attached questions and the
default user. -/
def stQ : GraphState :=
  { subjects := [⟨"S", "", 0⟩],
    topics := [⟨"T", "S", "", 1, 0⟩],
    hasTopicEdges := [("S", "T")],
    questions := [⟨"T", "S", qA⟩, ⟨"T", "S", qB⟩],
    users := ["default_user"] }

/-! ## Theorems -/

/-- Every generated embedding has the model's configured dimension: the
zero-vector fallbacks are built with `List.replicate dimension` and a
successful encode has the model dimension. -/
theorem generate_embedding_length (em : EmbModel) (t : String) :
    (generate_embedding em t).length = em.dimension := by
  unfold generate_embedding
  split
  · simp
  · cases hv : em.encode t with
    | none => simp
    | some v => simpa using em.encode_dim t v hv

/-- Claim C1: when the (subject, topic) pair of a question record does not
match an existing Topic node, `create_question` returns a rejection
(`none`) and leaves the graph state — in particular every label's node
count — unchanged. -/
theorem addQuestion_rejects_missing_topic (st : GraphState)
    (qd : QuestionRecord) (em : EmbModel) (now : Nat)
    (h : topicExists st qd.subject qd.topic = false) :
    create_question st qd em now = (none, st) ∧
    get_graph_statistics (create_question st qd em now).2 =
      get_graph_statistics st := by
  unfold create_question
  rw [h]
  simp

/-- Witness for C1 at a concrete rejected record. -/
theorem addQuestion_rejects_missing_topic_witness :
    topicExists stW "S" "missing" = false ∧
    create_question stW ⟨"q", "S", "missing", 0, "unknown", [], "", 0, 1⟩
        em384 3 = (none, stW) := by
  refine ⟨by decide, ?_⟩
  exact (addQuestion_rejects_missing_topic stW
    ⟨"q", "S", "missing", 0, "unknown", [], "", 0, 1⟩ em384 3
    (by decide)).1

/-- Claim C3 counterexample: a chunk record carrying a non-empty
pre-computed embedding of the wrong length is stored verbatim, so the
created Chunk node's embedding does not have the configured dimension
(here length 1 against the default dimension 384). -/
theorem chunk_embedding_dimension_counterexample :
    em384.dimension = 384 ∧
    topicExists stW "S" "T" = true ∧
    ((create_chunk stW ⟨"x", "S", "T", "unknown", 0, 0, some [1.0]⟩ em384
        0).1).map (fun c => c.embedding.length) = some 1 := by
  refine ⟨rfl, by decide, ?_⟩
  rfl

/-- Claim C3 (amended): every Question node created by the builder stores
an embedding of exactly the configured dimension D (including the
zero-vector fallback for blank text or a failing model), and so does
every Chunk node whose embedding the builder computes itself (supplied
embedding absent or empty); a Chunk record carrying a non-empty
pre-computed vector has that vector stored verbatim, whatever its
length. -/
theorem created_embedding_dimension (st : GraphState)
    (qd : QuestionRecord) (cd : ChunkRecord) (em : EmbModel) (now : Nat) :
    (topicExists st qd.subject qd.topic = true →
      ((create_question st qd em now).1).map
          (fun q => q.embedding.length) = some em.dimension) ∧
    (topicExists st cd.subject cd.topic = true →
      (cd.embedding = none ∨ cd.embedding = some []) →
      ((create_chunk st cd em now).1).map
          (fun c => c.embedding.length) = some em.dimension) := by
  constructor
  · intro h
    unfold create_question
    rw [h]
    simp [generate_embedding_length]
  · intro h hemb
    unfold create_chunk chunkEmbedding
    rw [h]
    rcases hemb with he | he <;> rw [he] <;>
      simp [generate_embedding_length]

/-- Witness for C3 at a concrete question record and a concrete chunk
record with no supplied embedding. -/
theorem created_embedding_dimension_witness :
    (topicExists stW "S" "T" = true ∧
      ((create_question stW ⟨"hello", "S", "T", 0, "unknown", [], "", 0, 1⟩
          emW 3).1).map (fun q => q.embedding.length) =
        some emW.dimension) ∧
    (((⟨"hello", "S", "T", "unknown", 0, 0, none⟩ : ChunkRecord).embedding
        = none ∨
        (⟨"hello", "S", "T", "unknown", 0, 0, none⟩ :
          ChunkRecord).embedding = some []) ∧
      ((create_chunk stW ⟨"hello", "S", "T", "unknown", 0, 0, none⟩ emW
          3).1).map (fun c => c.embedding.length) = some emW.dimension) :=
  ⟨⟨by decide,
    (created_embedding_dimension stW
      ⟨"hello", "S", "T", 0, "unknown", [], "", 0, 1⟩
      ⟨"hello", "S", "T", "unknown", 0, 0, none⟩ emW 3).1 (by decide)⟩,
   ⟨Or.inl rfl,
    (created_embedding_dimension stW
      ⟨"hello", "S", "T", 0, "unknown", [], "", 0, 1⟩
      ⟨"hello", "S", "T", "unknown", 0, 0, none⟩ emW 3).2 (by decide)
      (Or.inl rfl)⟩⟩

/-- Claim C7 counterexample: a chunk record that carries an embedding
which is the empty list (present but Python-falsy) is not stored
verbatim — `create_chunk` recomputes the embedding from the text, so the
created Chunk stores the model's vector instead of the supplied one. -/
theorem addChunk_verbatim_counterexample :
    (⟨"hello", "S", "T", "unknown", 0, 0, some []⟩ :
        ChunkRecord).embedding = some [] ∧
    topicExists stW "S" "T" = true ∧
    ((create_chunk stW ⟨"hello", "S", "T", "unknown", 0, 0, some []⟩ emW
        7).1).map (fun c => c.embedding) =
      some (generate_embedding emW "hello") ∧
    (generate_embedding emW "hello").length = 2 := by
  refine ⟨rfl, by decide, rfl, ?_⟩
  rw [generate_embedding_length]
  rfl

/-- Claim C7 (amended): `create_chunk` computes the embedding from the
record's text exactly when the supplied embedding is absent or empty
(Python truthiness of `chunk_data['embedding']`); a supplied non-empty
vector is stored on the created Chunk node verbatim without
recomputation. -/
theorem addChunk_embedding_choice (st : GraphState) (cd : ChunkRecord)
    (em : EmbModel) (now : Nat) :
    ((cd.embedding = none ∨ cd.embedding = some []) →
      chunkEmbedding cd em = generate_embedding em cd.text) ∧
    (∀ v, cd.embedding = some v → v ≠ [] → chunkEmbedding cd em = v) ∧
    (topicExists st cd.subject cd.topic = true →
      ((create_chunk st cd em now).1).map (fun c => c.embedding) =
        some (chunkEmbedding cd em)) := by
  refine ⟨?_, ?_, ?_⟩
  · intro h
    unfold chunkEmbedding
    rcases h with he | he <;> rw [he]
  · intro v hv hne
    unfold chunkEmbedding
    rw [hv]
    cases v with
    | nil => exact absurd rfl hne
    | cons a l => rfl
  · intro h
    unfold create_chunk
    rw [h]
    simp

/-- Witness for C7: a record with a supplied non-empty embedding is
stored verbatim, and a record with no embedding gets the computed one. -/
theorem addChunk_embedding_choice_witness :
    ((⟨"hello", "S", "T", "unknown", 0, 0, some [9.0]⟩ :
        ChunkRecord).embedding = some [9.0] ∧
      ([9.0] : List Float) ≠ [] ∧
      chunkEmbedding ⟨"hello", "S", "T", "unknown", 0, 0, some [9.0]⟩ emW
        = [9.0]) ∧
    ((⟨"hello", "S", "T", "unknown", 0, 0, none⟩ :
        ChunkRecord).embedding = none ∧
      chunkEmbedding ⟨"hello", "S", "T", "unknown", 0, 0, none⟩ emW =
        generate_embedding emW "hello") ∧
    (topicExists stW "S" "T" = true ∧
      ((create_chunk stW ⟨"hello", "S", "T", "unknown", 0, 0, some [9.0]⟩
          emW 7).1).map (fun c => c.embedding) =
        some (chunkEmbedding
          ⟨"hello", "S", "T", "unknown", 0, 0, some [9.0]⟩ emW)) :=
  ⟨⟨rfl, by simp,
    (addChunk_embedding_choice stW
      ⟨"hello", "S", "T", "unknown", 0, 0, some [9.0]⟩ emW 7).2.1 [9.0]
      rfl (by simp)⟩,
   ⟨rfl,
    (addChunk_embedding_choice stW
      ⟨"hello", "S", "T", "unknown", 0, 0, none⟩ emW 7).1 (Or.inl rfl)⟩,
   ⟨by decide,
    (addChunk_embedding_choice stW
      ⟨"hello", "S", "T", "unknown", 0, 0, some [9.0]⟩ emW 7).2.2
      (by decide)⟩⟩

/-- Claim C5 counterexample: a retrieval call against a faulty backend is
not a hard failure — `graph_search` and the question-retrieval calls
catch the raised backend error and return the same empty collection that
a healthy backend with no matching data returns, so the caller cannot
distinguish "nothing found" from "system broken". -/
theorem backend_error_propagation_counterexample :
    graph_searchE ⟨stQ, true⟩ "S" "T" true = none ∧
    graph_searchE ⟨{}, false⟩ "S" "T" true = none ∧
    get_questions_by_topicE ⟨stQ, true⟩ "S" "T" none none 10 = [] ∧
    get_questions_by_topicE ⟨{}, false⟩ "S" "T" none none 10 = [] ∧
    get_questions_ordered_by_difficultyE ⟨stQ, true⟩ "S" "T" true = [] ∧
    get_questions_ordered_by_difficultyE ⟨{}, false⟩ "S" "T" true = [] :=
  ⟨rfl, rfl, rfl, rfl, rfl, rfl⟩

/-- Claim C5 (amended): `Neo4jClient.run_query` and single-record
ingestion (`create_question`, which wraps no `try/except` around its
queries) propagate a backend error to the caller as a raised failure with
the graph state untouched; the retrieval calls (`vector_search`,
`graph_search`, `get_questions_by_topic`,
`get_questions_ordered_by_difficulty`), however, catch every exception
and return the empty collection, collapsing the error path into the
empty-result path. -/
theorem backend_error_propagation (b : Backend) (rows : List Nat)
    (qd : QuestionRecord) (em : EmbModel) (now : Nat)
    (subject topic : String) (ic asc : Bool)
    (year difficulty : Option Int) (limit : Nat)
    (h : b.fault = true) :
    run_query b rows = .error .backend ∧
    create_questionE b qd em now = .error .backend ∧
    graph_searchE b subject topic ic = none ∧
    get_questions_by_topicE b subject topic year difficulty limit = [] ∧
    get_questions_ordered_by_difficultyE b subject topic asc = [] := by
  unfold run_query create_questionE graph_searchE get_questions_by_topicE
    get_questions_ordered_by_difficultyE
  rw [h]
  simp

/-- Witness for C5 at a concrete faulty backend. -/
theorem backend_error_propagation_witness :
    (Backend.mk stQ true).fault = true ∧
    run_query ⟨stQ, true⟩ [1, 2] = .error .backend ∧
    create_questionE ⟨stQ, true⟩
        ⟨"q", "S", "T", 0, "unknown", [], "", 0, 1⟩ em384 0 =
      .error .backend ∧
    graph_searchE ⟨stQ, true⟩ "S" "T" true = none ∧
    get_questions_by_topicE ⟨stQ, true⟩ "S" "T" none none 10 = [] ∧
    get_questions_ordered_by_difficultyE ⟨stQ, true⟩ "S" "T" true = [] :=
  ⟨rfl,
   (backend_error_propagation ⟨stQ, true⟩ [1, 2]
      ⟨"q", "S", "T", 0, "unknown", [], "", 0, 1⟩ em384 0 "S" "T" true
      true none none 10 rfl).1,
   (backend_error_propagation ⟨stQ, true⟩ [1, 2]
      ⟨"q", "S", "T", 0, "unknown", [], "", 0, 1⟩ em384 0 "S" "T" true
      true none none 10 rfl).2.1,
   (backend_error_propagation ⟨stQ, true⟩ [1, 2]
      ⟨"q", "S", "T", 0, "unknown", [], "", 0, 1⟩ em384 0 "S" "T" true
      true none none 10 rfl).2.2.1,
   (backend_error_propagation ⟨stQ, true⟩ [1, 2]
      ⟨"q", "S", "T", 0, "unknown", [], "", 0, 1⟩ em384 0 "S" "T" true
      true none none 10 rfl).2.2.2.1,
   (backend_error_propagation ⟨stQ, true⟩ [1, 2]
      ⟨"q", "S", "T", 0, "unknown", [], "", 0, 1⟩ em384 0 "S" "T" true
      true none none 10 rfl).2.2.2.2⟩

/-- Claim C10: in `get_questions_by_topic` the two optional filters are
asymmetric at zero — `year = 0` is Python-falsy so no year clause is
added (the call equals the unfiltered one), while `difficulty = 0` is
checked with `is not None` and so adds an equality clause restricting the
results to difficulty-0 questions. -/
theorem questionsByTopic_zero_filter_asymmetry (st : GraphState)
    (subject topic : String) (difficulty : Option Int) (limit : Nat) :
    get_questions_by_topic st subject topic (some 0) difficulty limit =
      get_questions_by_topic st subject topic none difficulty limit ∧
    ∀ (year : Option Int) (q : QuestionNode),
      q ∈ get_questions_by_topic st subject topic year (some 0) limit →
      q.difficulty = 0 := by
  constructor
  · unfold get_questions_by_topic
    have hf : questionFilter (some 0) difficulty =
        questionFilter none difficulty := by
      funext q
      unfold questionFilter
      simp
    rw [hf]
  · intro year q hq
    unfold get_questions_by_topic at hq
    have h1 : q ∈ ((questionsForTopic st subject topic).filter
        (questionFilter year (some 0))).insertionSort ordYearDesc :=
      List.take_subset _ _ hq
    rw [List.mem_insertionSort] at h1
    have h2 := List.of_mem_filter h1
    unfold questionFilter at h2
    simp at h2
    exact h2.2

/-- Witness for C10 at a concrete state with questions of difficulty 0
and 3. -/
theorem questionsByTopic_zero_filter_asymmetry_witness :
    get_questions_by_topic stQ "S" "T" (some 0) none 10 =
      get_questions_by_topic stQ "S" "T" none none 10 ∧
    qA ∈ get_questions_by_topic stQ "S" "T" none (some 0) 10 ∧
    qA.difficulty = 0 := by
  have hm : qA ∈ get_questions_by_topic stQ "S" "T" none (some 0) 10 := by
    have he : get_questions_by_topic stQ "S" "T" none (some 0) 10 =
        [qA] := by rfl
    rw [he]
    exact List.mem_singleton_self qA
  exact ⟨(questionsByTopic_zero_filter_asymmetry stQ "S" "T" none 10).1,
    hm,
    (questionsByTopic_zero_filter_asymmetry stQ "S" "T" none 10).2 none
      qA hm⟩

/-- Claim C6: `get_questions_ordered_by_difficulty` with ascending=true
returns a sequence of non-decreasing difficulty, with ascending=false a
sequence of non-increasing difficulty, and in both cases a tie in
difficulty is broken by year in descending order. -/
theorem questionsByDifficulty_ordering (st : GraphState)
    (subject topic : String) :
    (get_questions_ordered_by_difficulty st subject topic true).Chain'
      (fun a b => a.difficulty ≤ b.difficulty ∧
        (a.difficulty = b.difficulty → b.year ≤ a.year)) ∧
    (get_questions_ordered_by_difficulty st subject topic false).Chain'
      (fun a b => b.difficulty ≤ a.difficulty ∧
        (a.difficulty = b.difficulty → b.year ≤ a.year)) := by
  constructor
  · have he : get_questions_ordered_by_difficulty st subject topic true =
        (questionsForTopic st subject topic).insertionSort ordDiffAsc :=
      rfl
    rw [he]
    have hs := List.sorted_insertionSort ordDiffAsc
      (questionsForTopic st subject topic)
    exact (hs.imp (fun h => by
      unfold ordDiffAsc at h
      exact ⟨by omega, fun he2 => by omega⟩)).chain'
  · have he : get_questions_ordered_by_difficulty st subject topic false =
        (questionsForTopic st subject topic).insertionSort ordDiffDesc :=
      rfl
    rw [he]
    have hs := List.sorted_insertionSort ordDiffDesc
      (questionsForTopic st subject topic)
    exact (hs.imp (fun h => by
      unfold ordDiffDesc at h
      exact ⟨by omega, fun he2 => by omega⟩)).chain'

/-- Claim C9: `graph_search` on a subject/topic pair with no matching
Subject/Topic (no row from the initial MATCH) returns the empty context
`none` rather than an error, and on an existing pair with no ingested
content returns a valid context with zero question_count and empty chunk
samples. -/
theorem graphSearch_empty_context (st : GraphState)
    (subject topic : String) (include_concepts : Bool) :
    (graphMatch st subject topic = false →
      graph_search st subject topic include_concepts = none) ∧
    (graphMatch st subject topic = true →
      questionsForTopic st subject topic = [] →
      chunksForTopic st subject topic = [] →
      (graph_search st subject topic include_concepts).map
          (fun c => (c.question_count, c.sample_chunks)) =
        some (0, [])) := by
  constructor
  · intro h
    unfold graphMatch at h
    unfold graph_search
    cases h1 : (hasSubject st subject && hasEdge st subject topic) with
    | false => simp [h1]
    | true =>
      rw [h1] at h
      simp only [Bool.true_and] at h
      cases hf : st.topics.find? (fun t =>
          t.name = topic && t.subject = subject) with
      | none => simp [h1, hf]
      | some t =>
        rw [hf] at h
        simp at h
  · intro h hq hc
    unfold graphMatch at h
    unfold graph_search
    cases h1 : (hasSubject st subject && hasEdge st subject topic) with
    | false =>
      rw [h1] at h
      simp at h
    | true =>
      rw [h1] at h
      simp only [Bool.true_and] at h
      cases hf : st.topics.find? (fun t =>
          t.name = topic && t.subject = subject) with
      | none =>
        rw [hf] at h
        simp at h
      | some t => simp [h1, hf, hq, hc]

/-- Witness for C9: a pair absent from the empty graph yields `none`, and
the freshly loaded curriculum topic with no content yields a context with
zero questions and no chunk samples. -/
theorem graphSearch_empty_context_witness :
    (graphMatch {} "S" "T" = false ∧
      graph_search {} "S" "T" true = none) ∧
    (graphMatch stW "S" "T" = true ∧
      (graph_search stW "S" "T" true).map
          (fun c => (c.question_count, c.sample_chunks)) =
        some (0, [])) :=
  ⟨⟨rfl, (graphSearch_empty_context {} "S" "T" true).1 rfl⟩,
   ⟨by decide,
    (graphSearch_empty_context stW "S" "T" true).2 (by decide) rfl rfl⟩⟩

/-- When no `ATTEMPTED` relationship for the question id exists, the
upsert takes the `ON CREATE` branch and appends a fresh relationship with
count 1. -/
theorem find_upsertAttempt_create (atts : List (Nat × AttemptRel))
    (i : Nat) (c : Bool) (now : Nat)
    (h : atts.find? (fun p => p.1 = i) = none) :
    (upsertAttempt atts i c now).find? (fun p => p.1 = i) =
      some (i, ⟨1, if c then 1 else 0, now, none,
        if c then some now else none⟩) := by
  have hany : atts.any (fun p => p.1 = i) = false :=
    List.any_eq_false.mpr (List.find?_eq_none.mp h)
  unfold upsertAttempt
  rw [hany]
  simp only [Bool.false_eq_true, if_false, List.find?_append, h,
    Option.none_or]
  simp

/-- When an `ATTEMPTED` relationship for the question id exists, the
upsert takes the `ON MATCH` branch: it increments the counts, sets
`last_attempt`, updates `last_correct` on a correct attempt and leaves
`first_attempt` alone. -/
theorem find_upsertAttempt_match (atts : List (Nat × AttemptRel))
    (i : Nat) (c : Bool) (now : Nat) (pr : Nat × AttemptRel)
    (h : atts.find? (fun p => p.1 = i) = some pr) :
    (upsertAttempt atts i c now).find? (fun p => p.1 = i) =
      some (i, ⟨pr.2.attempt_count + 1,
        pr.2.correct_count + (if c then 1 else 0), pr.2.first_attempt,
        some now, if c then some now else pr.2.last_correct⟩) := by
  have hpr : pr.1 = i := by
    have h3 := List.find?_some h
    simpa using h3
  have hany : atts.any (fun p => p.1 = i) = true :=
    List.any_eq_true.mpr
      ⟨pr, List.mem_of_find?_eq_some h, by simpa using hpr⟩
  unfold upsertAttempt
  rw [hany]
  simp only [if_true]
  induction atts with
  | nil => simp at h
  | cons x xs ih =>
    by_cases hx : x.1 = i
    · rw [List.find?_cons_of_pos _ (by simpa using hx)] at h
      cases h
      simp [hx]
    · rw [List.find?_cons_of_neg _ (by simpa using hx)] at h
      have hany2 : xs.any (fun p => p.1 = i) = true :=
        List.any_eq_true.mpr
          ⟨pr, List.mem_of_find?_eq_some h, by simpa using hpr⟩
      have ih2 := ih h hany2
      simpa [hx] using ih2

/-- Claim C8: the `ATTEMPTED` relationship is upserted, never replaced
wholesale — for a question matched by `record_attempt`, the first
recorded attempt creates the relationship with attempt_count 1 and
correct_count 1 or 0 according to correctness; every subsequent attempt
increments attempt_count by 1, increments correct_count exactly when
correct, updates `last_attempt`/`last_correct` and preserves
`first_attempt`. -/
theorem recordAttempt_upsert (st : GraphState)
    (subject topic question_text : String) (is_correct : Bool)
    (now i : Nat)
    (hu : st.users.contains "default_user" = true)
    (ht : topicExists st subject topic = true)
    (hm : (matchedQuestions st subject topic question_text).map
        (fun q => q.id) = [i]) :
    (findAttempt st i = none →
      findAttempt
          (record_attempt st subject topic question_text is_correct now)
          i =
        some ⟨1, if is_correct then 1 else 0, now, none,
          if is_correct then some now else none⟩) ∧
    (∀ a, findAttempt st i = some a →
      findAttempt
          (record_attempt st subject topic question_text is_correct now)
          i =
        some ⟨a.attempt_count + 1,
          a.correct_count + (if is_correct then 1 else 0),
          a.first_attempt, some now,
          if is_correct then some now else a.last_correct⟩) := by
  cases hml : matchedQuestions st subject topic question_text with
  | nil =>
    rw [hml] at hm
    simp at hm
  | cons x xs =>
    rw [hml] at hm
    simp only [List.map_cons, List.cons.injEq] at hm
    obtain ⟨hx, hxs⟩ := hm
    have hxsnil : xs = [] := List.map_eq_nil_iff.mp hxs
    subst hxsnil
    have hra : record_attempt st subject topic question_text is_correct
        now = { st with attempts :=
          (upsertAttempt st.attempts i is_correct now) } := by
      unfold record_attempt
      rw [hu, ht, hml]
      simp [hx]
    constructor
    · intro hnone
      rw [hra]
      unfold findAttempt at hnone ⊢
      have hfind : st.attempts.find? (fun p => p.1 = i) = none := by
        cases hf : st.attempts.find? (fun p => p.1 = i) with
        | none => rfl
        | some pr =>
          rw [hf] at hnone
          simp at hnone
      rw [show ({ st with attempts :=
          (upsertAttempt st.attempts i is_correct now)} :
            GraphState).attempts =
          upsertAttempt st.attempts i is_correct now from rfl,
        find_upsertAttempt_create st.attempts i is_correct now hfind]
      rfl
    · intro a ha
      rw [hra]
      unfold findAttempt at ha ⊢
      cases hf : st.attempts.find? (fun p => p.1 = i) with
      | none =>
        rw [hf] at ha
        simp at ha
      | some pr =>
        rw [hf] at ha
        simp only [Option.map_some', Option.some.injEq] at ha
        rw [show ({ st with attempts :=
            (upsertAttempt st.attempts i is_correct now)} :
              GraphState).attempts =
            upsertAttempt st.attempts i is_correct now from rfl,
          find_upsertAttempt_match st.attempts i is_correct now pr hf]
        simp [ha]

/-- Witness for C8: two successive recorded attempts on a concrete
question — the first creates the relationship with count 1, the second
increments the counts and keeps `first_attempt`. -/
theorem recordAttempt_upsert_witness :
    stQ.users.contains "default_user" = true ∧
    topicExists stQ "S" "T" = true ∧
    (matchedQuestions stQ "S" "T" "qa").map (fun q => q.id) = [0] ∧
    findAttempt stQ 0 = none ∧
    findAttempt (record_attempt stQ "S" "T" "qa" true 10) 0 =
      some ⟨1, 1, 10, none, some 10⟩ ∧
    findAttempt
        (record_attempt (record_attempt stQ "S" "T" "qa" true 10) "S"
          "T" "qa" false 11) 0 =
      some ⟨2, 1, 10, some 11, some 10⟩ :=
  ⟨by decide, by decide, by decide, by decide,
   (recordAttempt_upsert stQ "S" "T" "qa" true 10 0 (by decide)
      (by decide) (by decide)).1 (by decide),
   (recordAttempt_upsert (record_attempt stQ "S" "T" "qa" true 10) "S"
      "T" "qa" false 11 0 (by decide) (by decide) (by decide)).2
     ⟨1, 1, 10, none, some 10⟩ (by decide)⟩

/-- `create_question` never touches the Topic nodes. -/
theorem create_question_topics (st : GraphState) (qd : QuestionRecord)
    (em : EmbModel) (now : Nat) :
    (create_question st qd em now).2.topics = st.topics := by
  unfold create_question
  split <;> rfl

/-- `create_question` succeeds exactly on the topic-existence
precondition. -/
theorem create_question_isSome (st : GraphState) (qd : QuestionRecord)
    (em : EmbModel) (now : Nat) :
    (create_question st qd em now).1.isSome =
      topicExists st qd.subject qd.topic := by
  unfold create_question
  split <;> simp_all

/-- `create_question` appends exactly one Question node on success and
none on rejection. -/
theorem create_question_qlen (st : GraphState) (qd : QuestionRecord)
    (em : EmbModel) (now : Nat) :
    (create_question st qd em now).2.questions.length =
      st.questions.length +
        (if topicExists st qd.subject qd.topic then 1 else 0) := by
  unfold create_question
  split <;> simp_all

/-- Splitting a list by a predicate preserves its length. -/
theorem filter_length_split (l : List α) (p : α → Bool) :
    (l.filter p).length + (l.filter (fun x => !(p x))).length =
      l.length := by
  induction l with
  | nil => simp
  | cons x xs ih =>
    simp only [List.filter_cons]
    cases hp : p x <;> simp [hp] <;> omega

/-- The `load_pyqs` loop, for any starting accumulator: successes count
the records passing the topic-existence precondition, failures count the
rest, exactly one Question node is appended per success, and the Topic
nodes are untouched. -/
theorem load_pyqs_go (em : EmbModel) (now : Nat) :
    ∀ (recs : List QuestionRecord) (st : GraphState) (s f : Nat),
      (recs.foldl (pyqStep em now) (s, f, st)).1 =
        s + (recs.filter (fun r =>
          topicExists st r.subject r.topic)).length ∧
      (recs.foldl (pyqStep em now) (s, f, st)).2.1 =
        f + (recs.filter (fun r =>
          !(topicExists st r.subject r.topic))).length ∧
      (recs.foldl (pyqStep em now) (s, f, st)).2.2.questions.length =
        st.questions.length + (recs.filter (fun r =>
          topicExists st r.subject r.topic)).length ∧
      (recs.foldl (pyqStep em now) (s, f, st)).2.2.topics = st.topics := by
  intro recs
  induction recs with
  | nil =>
    intro st s f
    simp
  | cons r rs ih =>
    intro st s f
    rw [List.foldl_cons]
    cases hc : create_question st r em now with
    | mk o st2 =>
      have hiso : o.isSome = topicExists st r.subject r.topic := by
        rw [← create_question_isSome st r em now, hc]
      have hqlen : st2.questions.length = st.questions.length +
          (if topicExists st r.subject r.topic then 1 else 0) := by
        rw [← create_question_qlen st r em now, hc]
      have htop : st2.topics = st.topics := by
        rw [← create_question_topics st r em now, hc]
      have hfil : ∀ rs2 : List QuestionRecord,
          rs2.filter (fun x => topicExists st2 x.subject x.topic) =
            rs2.filter (fun x => topicExists st x.subject x.topic) :=
        fun rs2 => List.filter_congr (fun x _ => by
          unfold topicExists
          rw [htop])
      have hfil2 : ∀ rs2 : List QuestionRecord,
          rs2.filter (fun x => !(topicExists st2 x.subject x.topic)) =
            rs2.filter (fun x => !(topicExists st x.subject x.topic)) :=
        fun rs2 => List.filter_congr (fun x _ => by
          unfold topicExists
          rw [htop])
      cases o with
      | some q =>
        have ht : topicExists st r.subject r.topic = true := by
          simpa using hiso.symm
        have hstep : pyqStep em now (s, f, st) r = (s + 1, f, st2) := by
          unfold pyqStep
          rw [hc]
        rw [hstep]
        obtain ⟨ih1, ih2, ih3, ih4⟩ := ih st2 (s + 1) f
        refine ⟨?_, ?_, ?_, ?_⟩
        · rw [ih1, hfil rs]
          simp [List.filter_cons, ht]
          omega
        · rw [ih2, hfil2 rs]
          simp [List.filter_cons, ht]
        · rw [ih3, hfil rs, hqlen]
          simp [List.filter_cons, ht]
          omega
        · rw [ih4, htop]
      | none =>
        have ht : topicExists st r.subject r.topic = false := by
          simpa using hiso.symm
        have hstep : pyqStep em now (s, f, st) r = (s, f + 1, st2) := by
          unfold pyqStep
          rw [hc]
        rw [hstep]
        obtain ⟨ih1, ih2, ih3, ih4⟩ := ih st2 s (f + 1)
        refine ⟨?_, ?_, ?_, ?_⟩
        · rw [ih1, hfil rs]
          simp [List.filter_cons, ht]
        · rw [ih2, hfil2 rs]
          simp [List.filter_cons, ht]
          omega
        · rw [ih3, hfil rs, hqlen]
          simp [List.filter_cons, ht]
        · rw [ih4, htop]

/-- Claim C2: for a batch of N question records of which exactly M fail
the topic-existence precondition, `load_pyqs` processes every record (no
failure aborts the batch), reports exactly N-M successes and M failures,
and exactly N-M new Question nodes exist afterward. -/
theorem addQuestionsBatch_partial_failure (st : GraphState)
    (recs : List QuestionRecord) (em : EmbModel) (now : Nat) :
    (load_pyqs st recs em now).1 =
      recs.length - (recs.filter (fun r =>
        !(topicExists st r.subject r.topic))).length ∧
    (load_pyqs st recs em now).2.1 =
      (recs.filter (fun r =>
        !(topicExists st r.subject r.topic))).length ∧
    (load_pyqs st recs em now).2.2.questions.length =
      st.questions.length +
        (recs.length - (recs.filter (fun r =>
          !(topicExists st r.subject r.topic))).length) := by
  obtain ⟨h1, h2, h3, _⟩ := load_pyqs_go em now recs st 0 0
  have hsplit := filter_length_split recs
    (fun r => topicExists st r.subject r.topic)
  unfold load_pyqs
  refine ⟨?_, ?_, ?_⟩
  · rw [h1]
    omega
  · rw [h2]
    omega
  · rw [h3]
    omega

/-- `create_subject` leaves the Topic nodes untouched. -/
theorem create_subject_topics (st : GraphState) (n d : String)
    (now : Nat) : (create_subject st n d now).topics = st.topics := by
  unfold create_subject
  split <;> rfl

/-- `create_subject` leaves the `HAS_TOPIC` edges untouched. -/
theorem create_subject_edges (st : GraphState) (n d : String)
    (now : Nat) :
    (create_subject st n d now).hasTopicEdges = st.hasTopicEdges := by
  unfold create_subject
  split <;> rfl

/-- When the Subject already exists, the MERGE updates it in place and
the Subject count is unchanged. -/
theorem create_subject_length (st : GraphState) (n d : String)
    (now : Nat) (h : hasSubject st n = true) :
    (create_subject st n d now).subjects.length =
      st.subjects.length := by
  unfold create_subject
  rw [if_pos h]
  simp

/-- After `create_subject`, the Subject is present. -/
theorem hasSubject_create_subject_self (st : GraphState) (n d : String)
    (now : Nat) : hasSubject (create_subject st n d now) n = true := by
  unfold create_subject
  split
  · rename_i h
    unfold hasSubject at h ⊢
    rw [List.any_eq_true] at h ⊢
    obtain ⟨s, hs, hn⟩ := h
    have hn2 : s.name = n := by simpa using hn
    exact ⟨_, List.mem_map_of_mem _ hs, by simp [hn2]⟩
  · unfold hasSubject
    simp

/-- `create_subject` never removes a Subject. -/
theorem hasSubject_create_subject_mono (st : GraphState) (n d m : String)
    (now : Nat) (h : hasSubject st m = true) :
    hasSubject (create_subject st n d now) m = true := by
  unfold create_subject
  split
  · unfold hasSubject at h ⊢
    rw [List.any_eq_true] at h ⊢
    obtain ⟨s, hs, hm⟩ := h
    have hm2 : s.name = m := by simpa using hm
    refine ⟨_, List.mem_map_of_mem _ hs, ?_⟩
    split <;> simp [hm2]
  · unfold hasSubject at h ⊢
    rw [List.any_eq_true] at h ⊢
    obtain ⟨s, hs, hm⟩ := h
    exact ⟨s, List.mem_append_left _ hs, hm⟩

/-- The Topic MERGE leaves the Subject nodes untouched. -/
theorem mergeTopicNode_subjects (st : GraphState) (sn tn d : String)
    (df : Int) (now : Nat) :
    (mergeTopicNode st sn tn d df now).subjects = st.subjects := by
  unfold mergeTopicNode
  split <;> rfl

/-- The Topic MERGE leaves the `HAS_TOPIC` edges untouched. -/
theorem mergeTopicNode_edges (st : GraphState) (sn tn d : String)
    (df : Int) (now : Nat) :
    (mergeTopicNode st sn tn d df now).hasTopicEdges =
      st.hasTopicEdges := by
  unfold mergeTopicNode
  split <;> rfl

/-- After the Topic MERGE, the Topic is present. -/
theorem topicExists_mergeTopicNode_self (st : GraphState)
    (sn tn d : String) (df : Int) (now : Nat) :
    topicExists (mergeTopicNode st sn tn d df now) sn tn = true := by
  unfold mergeTopicNode
  split
  · rename_i h
    unfold topicExists at h ⊢
    rw [List.any_eq_true] at h ⊢
    obtain ⟨t, ht, hp⟩ := h
    have hp1 : t.name = tn := by
      simp at hp
      exact hp.1
    have hp2 : t.subject = sn := by
      simp at hp
      exact hp.2
    exact ⟨_, List.mem_map_of_mem _ ht, by simp [hp1, hp2]⟩
  · unfold topicExists
    simp

/-- The Topic MERGE never removes a Topic. -/
theorem topicExists_mergeTopicNode_mono (st : GraphState)
    (sn tn d : String) (df : Int) (now : Nat) (s t : String)
    (h : topicExists st s t = true) :
    topicExists (mergeTopicNode st sn tn d df now) s t = true := by
  unfold mergeTopicNode
  split
  · unfold topicExists at h ⊢
    rw [List.any_eq_true] at h ⊢
    obtain ⟨x, hx, hp⟩ := h
    have hp1 : x.name = t := by
      simp at hp
      exact hp.1
    have hp2 : x.subject = s := by
      simp at hp
      exact hp.2
    refine ⟨_, List.mem_map_of_mem _ hx, ?_⟩
    split <;> simp [hp1, hp2]
  · unfold topicExists at h ⊢
    rw [List.any_eq_true] at h ⊢
    obtain ⟨x, hx, hp⟩ := h
    exact ⟨x, List.mem_append_left _ hx, hp⟩

/-- When the Topic already exists, the MERGE updates it in place and the
Topic count is unchanged. -/
theorem mergeTopicNode_length (st : GraphState) (sn tn d : String)
    (df : Int) (now : Nat) (h : topicExists st sn tn = true) :
    (mergeTopicNode st sn tn d df now).topics.length =
      st.topics.length := by
  unfold mergeTopicNode
  rw [if_pos h]
  simp

/-- The edge MERGE leaves the Subject nodes untouched. -/
theorem mergeHasTopicEdge_subjects (st : GraphState) (sn tn : String) :
    (mergeHasTopicEdge st sn tn).subjects = st.subjects := by
  unfold mergeHasTopicEdge
  split <;> rfl

/-- The edge MERGE leaves the Topic nodes untouched. -/
theorem mergeHasTopicEdge_topics (st : GraphState) (sn tn : String) :
    (mergeHasTopicEdge st sn tn).topics = st.topics := by
  unfold mergeHasTopicEdge
  split <;> rfl

/-- After the edge MERGE, the `HAS_TOPIC` edge is present. -/
theorem hasEdge_mergeHasTopicEdge_self (st : GraphState)
    (sn tn : String) :
    hasEdge (mergeHasTopicEdge st sn tn) sn tn = true := by
  unfold mergeHasTopicEdge
  split
  · assumption
  · unfold hasEdge
    simp

/-- The edge MERGE never removes an edge. -/
theorem hasEdge_mergeHasTopicEdge_mono (st : GraphState)
    (sn tn s t : String) (h : hasEdge st s t = true) :
    hasEdge (mergeHasTopicEdge st sn tn) s t = true := by
  unfold mergeHasTopicEdge
  split
  · exact h
  · unfold hasEdge at h ⊢
    rw [List.any_eq_true] at h ⊢
    obtain ⟨e, he, hp⟩ := h
    exact ⟨e, List.mem_append_left _ he, hp⟩

/-- When the edge already exists, the edge MERGE is a no-op. -/
theorem mergeHasTopicEdge_present (st : GraphState) (sn tn : String)
    (h : hasEdge st sn tn = true) :
    mergeHasTopicEdge st sn tn = st := by
  unfold mergeHasTopicEdge
  rw [if_pos h]

/-- `topicExists` only looks at the Topic nodes, which the edge MERGE
leaves alone. -/
theorem topicExists_mergeHasTopicEdge (st : GraphState)
    (sn tn s t : String) :
    topicExists (mergeHasTopicEdge st sn tn) s t =
      topicExists st s t := by
  unfold topicExists
  rw [mergeHasTopicEdge_topics]

/-- `hasEdge` only looks at the edges, which the Topic MERGE leaves
alone. -/
theorem hasEdge_mergeTopicNode (st : GraphState) (sn tn d : String)
    (df : Int) (now : Nat) (s t : String) :
    hasEdge (mergeTopicNode st sn tn d df now) s t = hasEdge st s t := by
  unfold hasEdge
  rw [mergeTopicNode_edges]

/-- `create_topic` leaves the Subject nodes untouched. -/
theorem create_topic_subjects (st : GraphState) (sn tn d : String)
    (df : Int) (now : Nat) :
    (create_topic st sn tn d df now).subjects = st.subjects := by
  unfold create_topic
  split
  · rw [mergeHasTopicEdge_subjects, mergeTopicNode_subjects]
  · rfl

/-- `create_topic` does not change which Subjects exist. -/
theorem hasSubject_create_topic (st : GraphState) (sn tn d : String)
    (df : Int) (now : Nat) (m : String) :
    hasSubject (create_topic st sn tn d df now) m = hasSubject st m := by
  unfold hasSubject
  rw [create_topic_subjects]

/-- `create_topic` never removes a Topic. -/
theorem topicExists_create_topic_mono (st : GraphState)
    (sn tn d : String) (df : Int) (now : Nat) (s t : String)
    (h : topicExists st s t = true) :
    topicExists (create_topic st sn tn d df now) s t = true := by
  unfold create_topic
  split
  · rw [topicExists_mergeHasTopicEdge]
    exact topicExists_mergeTopicNode_mono st sn tn d df now s t h
  · exact h

/-- `create_topic` never removes a `HAS_TOPIC` edge. -/
theorem hasEdge_create_topic_mono (st : GraphState) (sn tn d : String)
    (df : Int) (now : Nat) (s t : String)
    (h : hasEdge st s t = true) :
    hasEdge (create_topic st sn tn d df now) s t = true := by
  unfold create_topic
  split
  · exact hasEdge_mergeHasTopicEdge_mono _ sn tn s t
      (by rw [hasEdge_mergeTopicNode]; exact h)
  · exact h

/-- When the Subject exists, `create_topic` establishes the Topic. -/
theorem topicExists_create_topic_self (st : GraphState)
    (sn tn d : String) (df : Int) (now : Nat)
    (h : hasSubject st sn = true) :
    topicExists (create_topic st sn tn d df now) sn tn = true := by
  unfold create_topic
  rw [if_pos h, topicExists_mergeHasTopicEdge]
  exact topicExists_mergeTopicNode_self st sn tn d df now

/-- When the Subject exists, `create_topic` establishes the edge. -/
theorem hasEdge_create_topic_self (st : GraphState) (sn tn d : String)
    (df : Int) (now : Nat) (h : hasSubject st sn = true) :
    hasEdge (create_topic st sn tn d df now) sn tn = true := by
  unfold create_topic
  rw [if_pos h]
  exact hasEdge_mergeHasTopicEdge_self _ sn tn

/-- When Subject, Topic and edge all exist already, `create_topic` only
updates attributes: the Topic and edge counts are unchanged. -/
theorem create_topic_counts (st : GraphState) (sn tn d : String)
    (df : Int) (now : Nat) (h1 : hasSubject st sn = true)
    (h2 : topicExists st sn tn = true) (h3 : hasEdge st sn tn = true) :
    (create_topic st sn tn d df now).topics.length =
      st.topics.length ∧
    (create_topic st sn tn d df now).hasTopicEdges.length =
      st.hasTopicEdges.length := by
  unfold create_topic
  rw [if_pos h1,
    mergeHasTopicEdge_present _ sn tn
      (by rw [hasEdge_mergeTopicNode]; exact h3)]
  constructor
  · exact mergeTopicNode_length st sn tn d df now h2
  · rw [mergeTopicNode_edges]

/-- `load_topics` leaves the Subject nodes untouched. -/
theorem load_topics_subjects (sn : String) (now : Nat) :
    ∀ (ts : List TopicInfo) (st : GraphState),
      (load_topics st sn ts now).subjects = st.subjects := by
  intro ts
  induction ts with
  | nil =>
    intro st
    rfl
  | cons t ts ih =>
    intro st
    rw [show load_topics st sn (t :: ts) now =
        load_topics (create_topic st sn t.name t.description t.difficulty
          now) sn ts now from rfl,
      ih, create_topic_subjects]

/-- `load_topics` does not change which Subjects exist. -/
theorem hasSubject_load_topics (sn : String) (now : Nat)
    (ts : List TopicInfo) (st : GraphState) (m : String) :
    hasSubject (load_topics st sn ts now) m = hasSubject st m := by
  unfold hasSubject
  rw [load_topics_subjects]

/-- `load_topics` never removes a Topic. -/
theorem topicExists_load_topics_mono (sn : String) (now : Nat) :
    ∀ (ts : List TopicInfo) (st : GraphState) (s t : String),
      topicExists st s t = true →
      topicExists (load_topics st sn ts now) s t = true := by
  intro ts
  induction ts with
  | nil =>
    intro st s t h
    exact h
  | cons t2 ts ih =>
    intro st s t h
    rw [show load_topics st sn (t2 :: ts) now =
        load_topics (create_topic st sn t2.name t2.description
          t2.difficulty now) sn ts now from rfl]
    exact ih _ s t
      (topicExists_create_topic_mono st sn t2.name t2.description
        t2.difficulty now s t h)

/-- `load_topics` never removes a `HAS_TOPIC` edge. -/
theorem hasEdge_load_topics_mono (sn : String) (now : Nat) :
    ∀ (ts : List TopicInfo) (st : GraphState) (s t : String),
      hasEdge st s t = true →
      hasEdge (load_topics st sn ts now) s t = true := by
  intro ts
  induction ts with
  | nil =>
    intro st s t h
    exact h
  | cons t2 ts ih =>
    intro st s t h
    rw [show load_topics st sn (t2 :: ts) now =
        load_topics (create_topic st sn t2.name t2.description
          t2.difficulty now) sn ts now from rfl]
    exact ih _ s t
      (hasEdge_create_topic_mono st sn t2.name t2.description
        t2.difficulty now s t h)

/-- When the Subject exists, `load_topics` establishes every listed
Topic together with its edge. -/
theorem load_topics_establish (sn : String) (now : Nat) :
    ∀ (ts : List TopicInfo) (st : GraphState),
      hasSubject st sn = true →
      ∀ t ∈ ts,
        topicExists (load_topics st sn ts now) sn t.name = true ∧
        hasEdge (load_topics st sn ts now) sn t.name = true := by
  intro ts
  induction ts with
  | nil =>
    intro st h t ht
    simp at ht
  | cons t2 ts ih =>
    intro st h t ht
    rw [show load_topics st sn (t2 :: ts) now =
        load_topics (create_topic st sn t2.name t2.description
          t2.difficulty now) sn ts now from rfl]
    rcases List.mem_cons.mp ht with he | hmem
    · subst he
      constructor
      · exact topicExists_load_topics_mono sn now ts _ sn t.name
          (topicExists_create_topic_self st sn t.name t.description
            t.difficulty now h)
      · exact hasEdge_load_topics_mono sn now ts _ sn t.name
          (hasEdge_create_topic_self st sn t.name t.description
            t.difficulty now h)
    · exact ih _ (by rw [hasSubject_create_topic]; exact h) t hmem

/-- When the Subject and every listed Topic and edge already exist,
`load_topics` changes no Topic or edge count. -/
theorem load_topics_counts (sn : String) (now : Nat) :
    ∀ (ts : List TopicInfo) (st : GraphState),
      hasSubject st sn = true →
      (∀ t ∈ ts, topicExists st sn t.name = true ∧
        hasEdge st sn t.name = true) →
      (load_topics st sn ts now).topics.length = st.topics.length ∧
      (load_topics st sn ts now).hasTopicEdges.length =
        st.hasTopicEdges.length := by
  intro ts
  induction ts with
  | nil =>
    intro st h hall
    exact ⟨rfl, rfl⟩
  | cons t2 ts ih =>
    intro st h hall
    obtain ⟨hp2, he2⟩ := hall t2 (List.mem_cons_self t2 ts)
    have hc := create_topic_counts st sn t2.name t2.description
      t2.difficulty now h hp2 he2
    rw [show load_topics st sn (t2 :: ts) now =
        load_topics (create_topic st sn t2.name t2.description
          t2.difficulty now) sn ts now from rfl]
    have ih2 := ih (create_topic st sn t2.name t2.description
        t2.difficulty now)
      (by rw [hasSubject_create_topic]; exact h)
      (fun t htm =>
        ⟨topicExists_create_topic_mono st sn t2.name t2.description
            t2.difficulty now sn t.name (hall t (List.mem_cons_of_mem _
              htm)).1,
         hasEdge_create_topic_mono st sn t2.name t2.description
            t2.difficulty now sn t.name (hall t (List.mem_cons_of_mem _
              htm)).2⟩)
    exact ⟨by rw [ih2.1, hc.1], by rw [ih2.2, hc.2]⟩

/-- `topicExists` only looks at the Topic nodes, which `create_subject`
leaves alone. -/
theorem topicExists_create_subject (st : GraphState) (n d : String)
    (now : Nat) (s t : String) :
    topicExists (create_subject st n d now) s t = topicExists st s t := by
  unfold topicExists
  rw [create_subject_topics]

/-- `hasEdge` only looks at the edges, which `create_subject` leaves
alone. -/
theorem hasEdge_create_subject (st : GraphState) (n d : String)
    (now : Nat) (s t : String) :
    hasEdge (create_subject st n d now) s t = hasEdge st s t := by
  unfold hasEdge
  rw [create_subject_edges]

/-- `load_syllabus` never removes a Subject. -/
theorem hasSubject_load_syllabus_mono (now : Nat) :
    ∀ (data : Syllabus) (st : GraphState) (m : String),
      hasSubject st m = true →
      hasSubject (load_syllabus st data now) m = true := by
  intro data
  induction data with
  | nil =>
    intro st m h
    exact h
  | cons p ps ih =>
    intro st m h
    rw [show load_syllabus st (p :: ps) now =
        load_syllabus (load_topics (create_subject st p.1
          p.2.description now) p.1 p.2.topics now) ps now from rfl]
    refine ih _ m ?_
    rw [hasSubject_load_topics]
    exact hasSubject_create_subject_mono st p.1 p.2.description m now h

/-- `load_syllabus` never removes a Topic. -/
theorem topicExists_load_syllabus_mono (now : Nat) :
    ∀ (data : Syllabus) (st : GraphState) (s t : String),
      topicExists st s t = true →
      topicExists (load_syllabus st data now) s t = true := by
  intro data
  induction data with
  | nil =>
    intro st s t h
    exact h
  | cons p ps ih =>
    intro st s t h
    rw [show load_syllabus st (p :: ps) now =
        load_syllabus (load_topics (create_subject st p.1
          p.2.description now) p.1 p.2.topics now) ps now from rfl]
    refine ih _ s t ?_
    refine topicExists_load_topics_mono p.1 now p.2.topics _ s t ?_
    rw [topicExists_create_subject]
    exact h

/-- `load_syllabus` never removes a `HAS_TOPIC` edge. -/
theorem hasEdge_load_syllabus_mono (now : Nat) :
    ∀ (data : Syllabus) (st : GraphState) (s t : String),
      hasEdge st s t = true →
      hasEdge (load_syllabus st data now) s t = true := by
  intro data
  induction data with
  | nil =>
    intro st s t h
    exact h
  | cons p ps ih =>
    intro st s t h
    rw [show load_syllabus st (p :: ps) now =
        load_syllabus (load_topics (create_subject st p.1
          p.2.description now) p.1 p.2.topics now) ps now from rfl]
    refine ih _ s t ?_
    refine hasEdge_load_topics_mono p.1 now p.2.topics _ s t ?_
    rw [hasEdge_create_subject]
    exact h

/-- After `load_syllabus`, every Subject, Topic and edge of the tree is
present. -/
theorem load_syllabus_establishes (now : Nat) :
    ∀ (data : Syllabus) (st : GraphState),
      syllabusLoaded (load_syllabus st data now) data = true := by
  intro data
  induction data with
  | nil =>
    intro st
    rfl
  | cons p ps ih =>
    intro st
    rw [show load_syllabus st (p :: ps) now =
        load_syllabus (load_topics (create_subject st p.1
          p.2.description now) p.1 p.2.topics now) ps now from rfl]
    unfold syllabusLoaded
    rw [List.all_cons, Bool.and_eq_true]
    constructor
    · rw [Bool.and_eq_true]
      constructor
      · refine hasSubject_load_syllabus_mono now ps _ p.1 ?_
        rw [hasSubject_load_topics]
        exact hasSubject_create_subject_self st p.1 p.2.description now
      · rw [List.all_eq_true]
        intro t htm
        have hest := load_topics_establish p.1 now p.2.topics
          (create_subject st p.1 p.2.description now)
          (hasSubject_create_subject_self st p.1 p.2.description now) t
          htm
        rw [Bool.and_eq_true]
        constructor
        · exact topicExists_load_syllabus_mono now ps _ p.1 t.name
            hest.1
        · exact hasEdge_load_syllabus_mono now ps _ p.1 t.name hest.2
    · exact ih _

/-- When every Subject, Topic and edge of the tree is already present,
`load_syllabus` only updates attributes: the Subject, Topic and edge
counts are unchanged. -/
theorem load_syllabus_counts (now : Nat) :
    ∀ (data : Syllabus) (st : GraphState),
      syllabusLoaded st data = true →
      curriculumCounts (load_syllabus st data now) =
        curriculumCounts st := by
  intro data
  induction data with
  | nil =>
    intro st _
    rfl
  | cons p ps ih =>
    intro st h
    unfold syllabusLoaded at h
    rw [List.all_cons, Bool.and_eq_true, Bool.and_eq_true] at h
    obtain ⟨⟨h1, h2⟩, h3⟩ := h
    rw [List.all_eq_true] at h2
    rw [show load_syllabus st (p :: ps) now =
        load_syllabus (load_topics (create_subject st p.1
          p.2.description now) p.1 p.2.topics now) ps now from rfl]
    have hlt := load_topics_counts p.1 now p.2.topics
      (create_subject st p.1 p.2.description now)
      (hasSubject_create_subject_self st p.1 p.2.description now)
      (fun t htm => by
        rw [topicExists_create_subject, hasEdge_create_subject]
        have := h2 t htm
        rw [Bool.and_eq_true] at this
        exact this)
    have hloaded2 : syllabusLoaded (load_topics (create_subject st p.1
        p.2.description now) p.1 p.2.topics now) ps = true := by
      unfold syllabusLoaded
      rw [List.all_eq_true] at h3 ⊢
      intro p2 hp2
      have hh := h3 p2 hp2
      rw [Bool.and_eq_true] at hh ⊢
      obtain ⟨hh1, hh2⟩ := hh
      constructor
      · rw [hasSubject_load_topics]
        exact hasSubject_create_subject_mono st p.1 p.2.description
          p2.1 now hh1
      · rw [List.all_eq_true] at hh2 ⊢
        intro t htm
        have ht2 := hh2 t htm
        rw [Bool.and_eq_true] at ht2 ⊢
        constructor
        · refine topicExists_load_topics_mono p.1 now p.2.topics _ p2.1
            t.name ?_
          rw [topicExists_create_subject]
          exact ht2.1
        · refine hasEdge_load_topics_mono p.1 now p.2.topics _ p2.1
            t.name ?_
          rw [hasEdge_create_subject]
          exact ht2.2
    rw [ih _ hloaded2]
    unfold curriculumCounts
    rw [hlt.1, hlt.2, load_topics_subjects, create_subject_topics,
      create_subject_edges,
      create_subject_length st p.1 p.2.description now h1]

/-- Claim C4: `load_syllabus` is idempotent — for every curriculum tree,
running it twice in succession yields exactly the same Subject count,
Topic count and `HAS_TOPIC` edge count as running it once; the second
run only updates descriptions/difficulty in place. -/
theorem loadCurriculum_idempotent (st : GraphState) (data : Syllabus)
    (now1 now2 : Nat) :
    curriculumCounts (load_syllabus (load_syllabus st data now1) data
        now2) =
      curriculumCounts (load_syllabus st data now1) :=
  load_syllabus_counts now2 data (load_syllabus st data now1)
    (load_syllabus_establishes now1 data st)
